import Mathlib

/-!
Shallow embedding of dynamic/message_factory.go from bakjos/protoreflect.

The Go file defines a KnownTypeRegistry (a layered resolver from
fully-qualified message names to instantiable Go types) and a
MessageFactory (which either instantiates a known type or falls back to a
generic dynamic message).

Modelling conventions:
- The ambient compiled-in type universe (proto.MessageType) is a parameter
  of type ProtoEnv.  A Go reflect.Type is modelled by ReflectType, carrying
  its fully-qualified name, whether it implements the well-known-type
  marker interface (t.Implements(typeOfWkt)), and whether its reflect Kind
  is Ptr.
- A nil *KnownTypeRegistry receiver is modelled as (none : Option
  KnownTypeRegistry); the Go zero-value registry is zeroKTR.
- Go map indexing on the registered-type map is typesLookup; map
  assignment is modelled by consing the new binding at the head of the
  association list (so the most recent binding for a key shadows older
  ones, exactly like overwriting a map entry).
- reflect.New allocates fresh zeroed memory: CreateIfKnown threads an
  allocation counter (AllocState) and a heap (Heap, address to content);
  each successful call consumes one fresh address and zeroes it.  Methods
  that in Go mutate nothing still return the registry component, so frame
  properties are statable.
- proto.MessageName is a property of the passed message value; a value for
  which the ambient call does not produce a valid name is modelled with
  messageName = none, and the corresponding Go panic is modelled by the
  Bool "panicked" component of AddKnownType.
-/

namespace ProtoDynamic

/-- A Go reflect.Type for a protobuf message type: its fully-qualified
name, whether it implements the well-known-type marker interface, and
whether its reflect Kind is Ptr. -/
structure ReflectType where
  name : String
  wellKnown : Bool
  isPtr : Bool
deriving DecidableEq, Repr

/-- The ambient compiled-in type universe: proto.MessageType, mapping a
fully-qualified name to the statically linked Go type, when one exists. -/
structure ProtoEnv where
  messageType : String → Option ReflectType

/-- Allocation state: the next fresh heap address handed out by
reflect.New. -/
structure AllocState where
  next : Nat
deriving DecidableEq, Repr

/-- The heap: address to content, with 0 standing for zeroed memory. -/
abbrev Heap := Nat → Nat

/-- Write a value at an address. -/
def Heap.write (h : Heap) (a v : Nat) : Heap :=
  fun a2 => if a2 = a then v else h a2

/-- Read the value at an address. -/
def Heap.read (h : Heap) (a : Nat) : Nat :=
  h a

/-- A message instance produced by CreateIfKnown: the address of its
freshly allocated storage, the selected reflect type, and whether it is
returned by reference (pointer Kind) or as a value. -/
structure Instance where
  addr : Nat
  type : ReflectType
  byRef : Bool
deriving DecidableEq, Repr

/-- Go map indexing into the registered-type map: the most recent binding
for a key wins (bindings are consed at the head). -/
def typesLookup : List (String × ReflectType) → String → Option ReflectType
  | [], _ => none
  | (k, t) :: rest, n => if k = n then some t else typesLookup rest n

/-- KnownTypeRegistry from message_factory.go: the excludeWkt and
includeDefault flags and the user-registered name-to-type map (the
sync.RWMutex field has no sequential content and is omitted). -/
structure KnownTypeRegistry where
  excludeWkt : Bool
  includeDefault : Bool
  types : List (String × ReflectType)
deriving DecidableEq, Repr

/-- The Go zero-value KnownTypeRegistry: both flags false, nil map. -/
def zeroKTR : KnownTypeRegistry :=
  { excludeWkt := false, includeDefault := false, types := [] }

/-- NewKnownTypeRegistryWithDefaults from message_factory.go. -/
def NewKnownTypeRegistryWithDefaults : KnownTypeRegistry :=
  { excludeWkt := false, includeDefault := true, types := [] }

/-- NewKnownTypeRegistryWithoutWellKnownTypes from message_factory.go. -/
def NewKnownTypeRegistryWithoutWellKnownTypes : KnownTypeRegistry :=
  { excludeWkt := true, includeDefault := false, types := [] }

/-- A proto.Message value as passed to AddKnownType: its runtime reflect
type (reflect.TypeOf) and the fully-qualified name reported for it by the
ambient proto.MessageName call, none when the value is not a valid message
instance (in which case the ambient call panics). -/
structure ProtoMessageVal where
  typeOf : ReflectType
  messageName : Option String
deriving DecidableEq, Repr

/-- AddKnownType from message_factory.go (lines 101-110): registers each
given message value under its fully-qualified name, in order, each
registration overwriting any earlier binding of the same name.  The Bool
result records whether an invalid value made the ambient
proto.MessageName call panic; registrations made before the panic are
kept, matching the Go loop aborting mid-way. -/
def AddKnownType (r : KnownTypeRegistry) : List ProtoMessageVal → KnownTypeRegistry × Bool
  | [] => (r, false)
  | kt :: rest =>
    match kt.messageName with
    | some n => AddKnownType { r with types := (n, kt.typeOf) :: r.types } rest
    | none => (r, true)

/-- CreateIfKnown from message_factory.go (lines 114-147), with the nil
receiver modelled as none.  It first resolves a reflect type: for a nil
registry, the compiled-in type if it is well-known; otherwise the
compiled-in type unconditionally when includeDefault is set, else the
compiled-in type if well-known when excludeWkt is unset, else nothing; if
still nothing, the user-registered map.  If a type was resolved it
allocates a fresh zeroed instance (reflect.New), returned by reference
for pointer Kinds and by value otherwise.  The registry component of the
result is the (unmodified) receiver state after the call. -/
def CreateIfKnown (env : ProtoEnv) (r : Option KnownTypeRegistry) (messageName : String)
    (σ : AllocState) (h : Heap) :
    Option Instance × Option KnownTypeRegistry × AllocState × Heap :=
  let msgType : Option ReflectType :=
    match r with
    | none =>
      match env.messageType messageName with
      | some t => if t.wellKnown then some t else none
      | none => none
    | some reg =>
      let fromCompiled : Option ReflectType :=
        if reg.includeDefault then
          env.messageType messageName
        else if !reg.excludeWkt then
          match env.messageType messageName with
          | some t => if t.wellKnown then some t else none
          | none => none
        else none
      match fromCompiled with
      | some t => some t
      | none => typesLookup reg.types messageName
  match msgType with
  | none => (none, r, σ, h)
  | some t => (some ⟨σ.next, t, t.isPtr⟩, r, ⟨σ.next + 1⟩, h.write σ.next 0)

/-- The type-resolution portion of CreateIfKnown, stated on its own so
proofs can case on the resolved type; CreateIfKnown is definitionally
this resolution followed by instantiation (see createIfKnown_resolve). -/
def resolveType (env : ProtoEnv) (r : Option KnownTypeRegistry) (messageName : String) :
    Option ReflectType :=
  match r with
  | none =>
    match env.messageType messageName with
    | some t => if t.wellKnown then some t else none
    | none => none
  | some reg =>
    let fromCompiled : Option ReflectType :=
      if reg.includeDefault then
        env.messageType messageName
      else if !reg.excludeWkt then
        match env.messageType messageName with
        | some t => if t.wellKnown then some t else none
        | none => none
      else none
    match fromCompiled with
    | some t => some t
    | none => typesLookup reg.types messageName

/-- An opaque extension registry: this core never inspects it, so only its
identity matters. -/
structure ExtensionRegistry where
  id : Nat
deriving DecidableEq, Repr

/-- MessageFactory from message_factory.go: an optional extension registry
and an optional known-type registry (both nilable pointers in Go). -/
structure MessageFactory where
  er : Option ExtensionRegistry
  ktr : Option KnownTypeRegistry
deriving DecidableEq, Repr

/-- NewMessageFactoryWithRegistries from message_factory.go. -/
def NewMessageFactoryWithRegistries (er : Option ExtensionRegistry)
    (ktr : Option KnownTypeRegistry) : MessageFactory :=
  { er := er, ktr := ktr }

/-- A schema descriptor, used solely for its fully-qualified name. -/
structure MessageDescriptor where
  fullyQualifiedName : String
deriving DecidableEq, Repr

/-- A proto.Message as returned by MessageFactory.NewMessage: either a
known-type instance or a generic dynamic message bound to a descriptor
and holding a back-reference to the factory that created it. -/
inductive ProtoMsg where
  | known (inst : Instance)
  | dynamic (md : MessageDescriptor) (factory : Option MessageFactory)
deriving DecidableEq, Repr

/-- Modelled from the spec: the package-level dynamic-message constructor
NewMessage of the dynamic package is not under src/; per section 4.2 step
1 of the spec it is a context-free default constructor that always
produces a generic message with no known-type shortcut and no extension
knowledge, so the generic message carries no factory back-reference. -/
def dynamicNewMessage (md : MessageDescriptor) : ProtoMsg :=
  .dynamic md none

/-- Modelled from the spec: newMessageWithMessageFactory of the dynamic
package is not under src/; per section 4.2 step 3 of the spec it
constructs a generic message bound to the descriptor and carrying a
back-reference to the given factory. -/
def newMessageWithMessageFactory (md : MessageDescriptor) (f : MessageFactory) : ProtoMsg :=
  .dynamic md (some f)

/-- MessageFactory.NewMessage from message_factory.go (lines 55-63), with
the nil receiver modelled as none: a nil factory delegates to the
package-level dynamic constructor; otherwise the known-type registry is
consulted and a non-nil instance is returned directly, else a generic
message bound to this factory is produced. -/
def MessageFactory.NewMessage (env : ProtoEnv) (f : Option MessageFactory)
    (md : MessageDescriptor) (σ : AllocState) (h : Heap) : ProtoMsg × AllocState × Heap :=
  match f with
  | none => (dynamicNewMessage md, σ, h)
  | some fac =>
    match CreateIfKnown env fac.ktr md.fullyQualifiedName σ h with
    | (some m, _, σ2, h2) => (.known m, σ2, h2)
    | (none, _, σ2, h2) => (newMessageWithMessageFactory md fac, σ2, h2)

/-- The last registration in a list of AddKnownType arguments for a given
name, if any: the binding that wins under overwrite semantics. -/
def lastRegistered : List ProtoMessageVal → String → Option ReflectType
  | [], _ => none
  | kt :: rest, n =>
    match lastRegistered rest n with
    | some t => some t
    | none => if kt.messageName = some n then some kt.typeOf else none

/-- A sequence of CreateIfKnown calls, threading the registry, allocation
and heap state through each call in order. -/
def lookupSeq (env : ProtoEnv) (r : Option KnownTypeRegistry) :
    List String → AllocState → Heap → Option KnownTypeRegistry × AllocState × Heap
  | [], σ, h => (r, σ, h)
  | n :: rest, σ, h =>
    match CreateIfKnown env r n σ h with
    | (_, r2, σ2, h2) => lookupSeq env r2 rest σ2 h2

/-! Concrete fixtures used by the witness theorems. -/

/-- A compiled-in well-known type (pointer Kind). -/
def tDur : ReflectType :=
  { name := "google.protobuf.Duration", wellKnown := true, isPtr := true }

/-- A compiled-in type that is not well-known (pointer Kind). -/
def tFoo : ReflectType :=
  { name := "pkg.Foo", wellKnown := false, isPtr := true }

/-- A user-supplied type distinct from the compiled-in ones (value Kind). -/
def tBar : ReflectType :=
  { name := "pkg.Bar", wellKnown := false, isPtr := false }

/-- A concrete compiled-in universe: one well-known type and one plain
compiled-in type. -/
def envX : ProtoEnv :=
  ⟨fun n =>
    if n = "google.protobuf.Duration" then some tDur
    else if n = "pkg.Foo" then some tFoo
    else none⟩

/-- Initial allocation state. -/
def σ0 : AllocState := ⟨0⟩

/-- An all-zero initial heap. -/
def heap0 : Heap := fun _ => 0

/-! General lemmas about the embedding, shared by the claim theorems. -/

/-- CreateIfKnown is the factored resolution step followed by
instantiation. -/
theorem createIfKnown_resolve (env : ProtoEnv) (r : Option KnownTypeRegistry)
    (n : String) (σ : AllocState) (h : Heap) :
    CreateIfKnown env r n σ h =
      match resolveType env r n with
      | none => (none, r, σ, h)
      | some t => (some ⟨σ.next, t, t.isPtr⟩, r, ⟨σ.next + 1⟩, h.write σ.next 0) := rfl

/-- CreateIfKnown returns its registry argument unchanged. -/
theorem createIfKnown_frame (env : ProtoEnv) (r : Option KnownTypeRegistry)
    (n : String) (σ : AllocState) (h : Heap) :
    (CreateIfKnown env r n σ h).2.1 = r := by
  rw [createIfKnown_resolve]
  cases resolveType env r n <;> rfl

/-- Two registries agreeing on both flags and on the lookup of a name
resolve that name identically. -/
theorem resolveType_congr (env : ProtoEnv) (r1 r2 : KnownTypeRegistry) (n : String)
    (he : r1.excludeWkt = r2.excludeWkt) (hi : r1.includeDefault = r2.includeDefault)
    (ht : typesLookup r1.types n = typesLookup r2.types n) :
    resolveType env (some r1) n = resolveType env (some r2) n := by
  simp only [resolveType]
  rw [he, hi, ht]

/-- AddKnownType leaves the excludeWkt and includeDefault flags
untouched. -/
theorem addKnownType_flags (kts : List ProtoMessageVal) (r : KnownTypeRegistry) :
    (AddKnownType r kts).1.excludeWkt = r.excludeWkt ∧
    (AddKnownType r kts).1.includeDefault = r.includeDefault := by
  induction kts generalizing r with
  | nil => exact ⟨rfl, rfl⟩
  | cons kt rest ih =>
    cases hkt : kt.messageName with
    | none => simp [AddKnownType, hkt]
    | some m => simpa [AddKnownType, hkt] using ih { r with types := (m, kt.typeOf) :: r.types }

/-- On valid inputs AddKnownType does not panic. -/
theorem addKnownType_ok (kts : List ProtoMessageVal) (r : KnownTypeRegistry)
    (hv : ∀ kt ∈ kts, kt.messageName ≠ none) :
    (AddKnownType r kts).2 = false := by
  induction kts generalizing r with
  | nil => rfl
  | cons kt rest ih =>
    cases hkt : kt.messageName with
    | none => exact absurd hkt (hv kt (by simp))
    | some m =>
      simp only [AddKnownType, hkt]
      exact ih { r with types := (m, kt.typeOf) :: r.types }
        (fun kt2 hm => hv kt2 (by simp [hm]))

/-- After AddKnownType on valid inputs, looking a name up in the
registered map yields the last registration for that name when there is
one, and the pre-existing binding otherwise. -/
theorem addKnownType_lookup (kts : List ProtoMessageVal) (r : KnownTypeRegistry)
    (n : String) (hv : ∀ kt ∈ kts, kt.messageName ≠ none) :
    typesLookup (AddKnownType r kts).1.types n =
      (match lastRegistered kts n with
       | some t => some t
       | none => typesLookup r.types n) := by
  induction kts generalizing r with
  | nil => rfl
  | cons kt rest ih =>
    cases hkt : kt.messageName with
    | none => exact absurd hkt (hv kt (by simp))
    | some m =>
      simp only [AddKnownType, hkt]
      rw [ih { r with types := (m, kt.typeOf) :: r.types }
        (fun kt2 hm => hv kt2 (by simp [hm]))]
      simp only [lastRegistered, hkt]
      cases lastRegistered rest n with
      | some t => rfl
      | none =>
        by_cases hm : m = n
        · simp [typesLookup, hm]
        · simp [typesLookup, hm]

/-! Theorems settling the claims. -/

/-- C1: in well-known-only mode (excludeWkt and includeDefault both
unset), a name that is simultaneously a well-known compiled-in type and
present in the user-registered map resolves to the compiled-in type; the
registered map decides the result only when the well-known resolution
step selects nothing. -/
theorem c1_compiled_wellKnown_beats_registered (env : ProtoEnv) (r : KnownTypeRegistry)
    (n : String) (σ : AllocState) (h : Heap)
    (hex : r.excludeWkt = false) (hinc : r.includeDefault = false) :
    (∀ t u, env.messageType n = some t → t.wellKnown = true →
      typesLookup r.types n = some u →
      (CreateIfKnown env (some r) n σ h).1 = some ⟨σ.next, t, t.isPtr⟩) ∧
    ((∀ t, env.messageType n = some t → t.wellKnown = false) →
      (CreateIfKnown env (some r) n σ h).1 =
        (typesLookup r.types n).map (fun u => ⟨σ.next, u, u.isPtr⟩)) := by
  constructor
  · intro t u hc hwk _hreg
    simp [CreateIfKnown, hex, hinc, hc, hwk]
  · intro hnowk
    cases hc : env.messageType n with
    | none =>
      simp only [CreateIfKnown, hex, hinc, hc]
      cases typesLookup r.types n <;> simp
    | some t =>
      have hwk := hnowk t hc
      simp only [CreateIfKnown, hex, hinc, hc, hwk]
      cases typesLookup r.types n <;> simp

/-- C1 witness: with the Duration name both compiled-in well-known and
user-registered (as tBar), the compiled-in type wins. -/
theorem c1_compiled_wellKnown_beats_registered_witness :
    (CreateIfKnown envX
      (some { excludeWkt := false, includeDefault := false,
              types := [("google.protobuf.Duration", tBar)] })
      "google.protobuf.Duration" σ0 heap0).1 = some ⟨0, tDur, true⟩ :=
  (c1_compiled_wellKnown_beats_registered envX
      { excludeWkt := false, includeDefault := false,
        types := [("google.protobuf.Duration", tBar)] }
      "google.protobuf.Duration" σ0 heap0 rfl rfl).1 tDur tBar rfl rfl rfl

/-- C2: a nil registry and the zero-value registry produce identical
results and identical final states, and for any name the result is a
(non-nil) instance exactly when the compiled-in type exists and carries
the well-known marker. -/
theorem c2_nil_eq_zero_wellKnown_only (env : ProtoEnv) (n : String)
    (σ : AllocState) (h : Heap) :
    ((CreateIfKnown env none n σ h).1 = (CreateIfKnown env (some zeroKTR) n σ h).1 ∧
     (CreateIfKnown env none n σ h).2.2 = (CreateIfKnown env (some zeroKTR) n σ h).2.2) ∧
    ((CreateIfKnown env none n σ h).1 ≠ none ↔
      ∃ t, env.messageType n = some t ∧ t.wellKnown = true) := by
  cases hc : env.messageType n with
  | none => simp [CreateIfKnown, zeroKTR, typesLookup, hc]
  | some t =>
    cases hwk : t.wellKnown <;>
      simp [CreateIfKnown, zeroKTR, typesLookup, hc, hwk]

/-- C4: with well-known types excluded (excludeWkt set, includeDefault
unset), a well-known compiled-in name yields nothing unless the caller
registered it, in which case the registered type is instantiated. -/
theorem c4_excluded_wellKnown_absent_unless_registered (env : ProtoEnv)
    (r : KnownTypeRegistry) (n : String) (t : ReflectType) (σ : AllocState) (h : Heap)
    (hex : r.excludeWkt = true) (hinc : r.includeDefault = false)
    (_hc : env.messageType n = some t) (_hwk : t.wellKnown = true) :
    (typesLookup r.types n = none → (CreateIfKnown env (some r) n σ h).1 = none) ∧
    (∀ u, typesLookup r.types n = some u →
      (CreateIfKnown env (some r) n σ h).1 = some ⟨σ.next, u, u.isPtr⟩) := by
  constructor
  · intro hreg
    simp [CreateIfKnown, hex, hinc, hreg]
  · intro u hreg
    simp [CreateIfKnown, hex, hinc, hreg]

/-- C4 witness: the exclude-well-known registry makes the Duration name
absent, and registering it (as tBar) brings back the registered type. -/
theorem c4_excluded_wellKnown_absent_unless_registered_witness :
    (CreateIfKnown envX (some NewKnownTypeRegistryWithoutWellKnownTypes)
      "google.protobuf.Duration" σ0 heap0).1 = none ∧
    (CreateIfKnown envX
      (some { NewKnownTypeRegistryWithoutWellKnownTypes with
              types := [("google.protobuf.Duration", tBar)] })
      "google.protobuf.Duration" σ0 heap0).1 = some ⟨0, tBar, false⟩ :=
  ⟨(c4_excluded_wellKnown_absent_unless_registered envX
      NewKnownTypeRegistryWithoutWellKnownTypes
      "google.protobuf.Duration" tDur σ0 heap0 rfl rfl rfl rfl).1 rfl,
   (c4_excluded_wellKnown_absent_unless_registered envX
      { NewKnownTypeRegistryWithoutWellKnownTypes with
        types := [("google.protobuf.Duration", tBar)] }
      "google.protobuf.Duration" tDur σ0 heap0 rfl rfl rfl rfl).2 tBar rfl⟩

/-- C5: with includeDefault set, any compiled-in type is selected
unconditionally, with no well-known check and regardless of the
user-registered map and of excludeWkt. -/
theorem c5_includeDefault_selects_any_compiled (env : ProtoEnv) (r : KnownTypeRegistry)
    (n : String) (t : ReflectType) (σ : AllocState) (h : Heap)
    (hinc : r.includeDefault = true) (hc : env.messageType n = some t) :
    (CreateIfKnown env (some r) n σ h).1 = some ⟨σ.next, t, t.isPtr⟩ := by
  simp [CreateIfKnown, hinc, hc]

/-- C5 witness: the defaults registry instantiates the non-well-known
compiled-in type pkg.Foo. -/
theorem c5_includeDefault_selects_any_compiled_witness :
    (CreateIfKnown envX (some NewKnownTypeRegistryWithDefaults)
      "pkg.Foo" σ0 heap0).1 = some ⟨0, tFoo, true⟩ :=
  c5_includeDefault_selects_any_compiled envX NewKnownTypeRegistryWithDefaults
    "pkg.Foo" tFoo σ0 heap0 rfl rfl

/-- C3: NewMessage on a nil factory always yields a generic message with
no context; on a non-nil factory it returns the known-type instance
exactly when the registry resolves the descriptor name, and otherwise a
generic message bound to the descriptor and back-referencing the same
factory (hence the same known-type and extension registries). -/
theorem c3_newMessage_known_or_generic (env : ProtoEnv) (f : MessageFactory)
    (md : MessageDescriptor) (σ : AllocState) (h : Heap) :
    (MessageFactory.NewMessage env none md σ h).1 = ProtoMsg.dynamic md none ∧
    (∀ m, (CreateIfKnown env f.ktr md.fullyQualifiedName σ h).1 = some m →
      (MessageFactory.NewMessage env (some f) md σ h).1 = ProtoMsg.known m) ∧
    ((CreateIfKnown env f.ktr md.fullyQualifiedName σ h).1 = none →
      (MessageFactory.NewMessage env (some f) md σ h).1 = ProtoMsg.dynamic md (some f)) := by
  refine ⟨rfl, ?_, ?_⟩
  · intro m hm
    rw [createIfKnown_resolve] at hm
    cases hres : resolveType env f.ktr md.fullyQualifiedName <;> rw [hres] at hm
    · exact absurd hm (by simp)
    · simp only [Option.some.injEq] at hm
      subst hm
      simp [MessageFactory.NewMessage, createIfKnown_resolve, hres]
  · intro hm
    rw [createIfKnown_resolve] at hm
    cases hres : resolveType env f.ktr md.fullyQualifiedName <;> rw [hres] at hm
    · simp [MessageFactory.NewMessage, createIfKnown_resolve, hres,
        newMessageWithMessageFactory]
    · exact absurd hm (by simp)

/-- C3 witness: with a factory holding a nil known-type registry, the
unknown name pkg.Bar falls back to a generic message back-referencing the
factory, and the well-known Duration name yields the known instance. -/
theorem c3_newMessage_known_or_generic_witness :
    (MessageFactory.NewMessage envX (some ⟨none, none⟩) ⟨"pkg.Bar"⟩ σ0 heap0).1 =
      ProtoMsg.dynamic ⟨"pkg.Bar"⟩ (some ⟨none, none⟩) ∧
    (MessageFactory.NewMessage envX (some ⟨none, none⟩)
        ⟨"google.protobuf.Duration"⟩ σ0 heap0).1 =
      ProtoMsg.known ⟨0, tDur, true⟩ :=
  ⟨(c3_newMessage_known_or_generic envX ⟨none, none⟩ ⟨"pkg.Bar"⟩ σ0 heap0).2.2 rfl,
   (c3_newMessage_known_or_generic envX ⟨none, none⟩ ⟨"google.protobuf.Duration"⟩
      σ0 heap0).2.1 ⟨0, tDur, true⟩ rfl⟩

/-- C6: a successful CreateIfKnown call followed by a second call for the
same name yields two instances of the same type at distinct fresh
addresses, both zeroed, returned by reference exactly for pointer Kinds,
and writing through either address leaves the content seen through the
other unchanged. -/
theorem c6_fresh_independent_instances (env : ProtoEnv) (r : Option KnownTypeRegistry)
    (n : String) (σ : AllocState) (h : Heap) (m1 : Instance)
    (r1 : Option KnownTypeRegistry) (σ1 : AllocState) (h1 : Heap)
    (hc : CreateIfKnown env r n σ h = (some m1, r1, σ1, h1)) :
    ∃ m2 σ2 h2, CreateIfKnown env r1 n σ1 h1 = (some m2, r1, σ2, h2) ∧
      m2.type = m1.type ∧ m1.byRef = m1.type.isPtr ∧ m2.byRef = m2.type.isPtr ∧
      m1.addr ≠ m2.addr ∧
      Heap.read h1 m1.addr = 0 ∧ Heap.read h2 m2.addr = 0 ∧ Heap.read h2 m1.addr = 0 ∧
      (∀ v, Heap.read (Heap.write h2 m1.addr v) m2.addr = Heap.read h2 m2.addr) ∧
      (∀ v, Heap.read (Heap.write h2 m2.addr v) m1.addr = Heap.read h2 m1.addr) := by
  rw [createIfKnown_resolve] at hc
  cases hres : resolveType env r n <;> rw [hres] at hc
  · exact absurd hc (by simp)
  · rename_i t
    simp only [Prod.mk.injEq, Option.some.injEq] at hc
    obtain ⟨hm1, hr1, hσ1, hh1⟩ := hc
    subst hm1; subst hr1; subst hσ1; subst hh1
    refine ⟨⟨σ.next + 1, t, t.isPtr⟩, ⟨σ.next + 2⟩,
      Heap.write (Heap.write h σ.next 0) (σ.next + 1) 0, ?_, rfl, rfl, rfl, ?_, ?_, ?_, ?_, ?_, ?_⟩
    · rw [createIfKnown_resolve, hres]
    · show σ.next ≠ σ.next + 1
      omega
    · simp [Heap.read, Heap.write]
    · simp [Heap.read, Heap.write]
    · have hne : σ.next ≠ σ.next + 1 := by omega
      simp [Heap.read, Heap.write, hne]
    · intro v
      have hne : σ.next + 1 ≠ σ.next := by omega
      simp [Heap.read, Heap.write, hne]
    · intro v
      have hne : σ.next ≠ σ.next + 1 := by omega
      simp [Heap.read, Heap.write, hne]

/-- C6 witness: creating the well-known Duration instance twice from the
nil registry yields instances at addresses 0 and then a distinct fresh
address, independently mutable. -/
theorem c6_fresh_independent_instances_witness :
    ∃ m2 σ2 h2,
      CreateIfKnown envX none "google.protobuf.Duration" ⟨1⟩ (Heap.write heap0 0 0) =
        (some m2, none, σ2, h2) ∧
      m2.type = tDur ∧ true = tDur.isPtr ∧ m2.byRef = m2.type.isPtr ∧
      (0 : Nat) ≠ m2.addr ∧
      Heap.read (Heap.write heap0 0 0) 0 = 0 ∧ Heap.read h2 m2.addr = 0 ∧
      Heap.read h2 0 = 0 ∧
      (∀ v, Heap.read (Heap.write h2 0 v) m2.addr = Heap.read h2 m2.addr) ∧
      (∀ v, Heap.read (Heap.write h2 m2.addr v) 0 = Heap.read h2 0) :=
  c6_fresh_independent_instances envX none "google.protobuf.Duration" σ0 heap0
    ⟨0, tDur, true⟩ none ⟨1⟩ (Heap.write heap0 0 0) rfl

/-- C7: on valid inputs AddKnownType never fails, registers each value
under its fully-qualified name with last-registration-wins semantics, and
is additive: every name without a registration in the call keeps exactly
the lookup result, and hence the CreateIfKnown result, it had before. -/
theorem c7_addKnownType_lastWins_additive (r : KnownTypeRegistry)
    (kts : List ProtoMessageVal) (hv : ∀ kt ∈ kts, kt.messageName ≠ none) :
    (AddKnownType r kts).2 = false ∧
    (∀ n, typesLookup (AddKnownType r kts).1.types n =
      (match lastRegistered kts n with
       | some t => some t
       | none => typesLookup r.types n)) ∧
    (∀ env n σ h, lastRegistered kts n = none →
      (CreateIfKnown env (some (AddKnownType r kts).1) n σ h).1 =
        (CreateIfKnown env (some r) n σ h).1) := by
  refine ⟨addKnownType_ok kts r hv, fun n => addKnownType_lookup kts r n hv, ?_⟩
  intro env n σ h hlast
  have hflags := addKnownType_flags kts r
  have hcongr := resolveType_congr env (AddKnownType r kts).1 r n hflags.1 hflags.2
    (by rw [addKnownType_lookup kts r n hv, hlast])
  rw [createIfKnown_resolve, createIfKnown_resolve, hcongr]
  cases resolveType env (some r) n <;> rfl

/-- C7 witness: registering the name a twice (tFoo then tBar) succeeds,
the last registration tBar wins, and the unrelated name pkg.Bar resolves
exactly as before the call. -/
theorem c7_addKnownType_lastWins_additive_witness :
    (AddKnownType zeroKTR [⟨tFoo, some "a"⟩, ⟨tBar, some "a"⟩]).2 = false ∧
    typesLookup (AddKnownType zeroKTR [⟨tFoo, some "a"⟩, ⟨tBar, some "a"⟩]).1.types "a" =
      (match lastRegistered [⟨tFoo, some "a"⟩, ⟨tBar, some "a"⟩] "a" with
       | some t => some t
       | none => typesLookup zeroKTR.types "a") ∧
    (CreateIfKnown envX
        (some (AddKnownType zeroKTR [⟨tFoo, some "a"⟩, ⟨tBar, some "a"⟩]).1)
        "pkg.Bar" σ0 heap0).1 =
      (CreateIfKnown envX (some zeroKTR) "pkg.Bar" σ0 heap0).1 :=
  ⟨(c7_addKnownType_lastWins_additive zeroKTR [⟨tFoo, some "a"⟩, ⟨tBar, some "a"⟩]
      (by decide)).1,
   (c7_addKnownType_lastWins_additive zeroKTR [⟨tFoo, some "a"⟩, ⟨tBar, some "a"⟩]
      (by decide)).2.1 "a",
   (c7_addKnownType_lastWins_additive zeroKTR [⟨tFoo, some "a"⟩, ⟨tBar, some "a"⟩]
      (by decide)).2.2 envX "pkg.Bar" σ0 heap0 (by decide)⟩

/-- C10: CreateIfKnown never mutates the registry: the registry component
of its result is its argument, any sequence of lookups threads the
registry through unchanged, and a lookup performed on the post-call
registry state returns exactly what it returns on the original one. -/
theorem c10_createIfKnown_no_mutation (env : ProtoEnv) (r : Option KnownTypeRegistry)
    (n : String) (σ : AllocState) (h : Heap) (ns : List String) :
    (CreateIfKnown env r n σ h).2.1 = r ∧
    (∀ σ2 h2, (lookupSeq env r ns σ2 h2).1 = r) ∧
    (∀ n2 σ2 h2,
      (CreateIfKnown env (CreateIfKnown env r n σ h).2.1 n2 σ2 h2).1 =
        (CreateIfKnown env r n2 σ2 h2).1) := by
  refine ⟨createIfKnown_frame env r n σ h, ?_, ?_⟩
  · intro σ2 h2
    induction ns generalizing σ2 h2 with
    | nil => rfl
    | cons n2 rest ih =>
      have hfr := createIfKnown_frame env r n2 σ2 h2
      rcases hE : CreateIfKnown env r n2 σ2 h2 with ⟨o, r2, σ3, h3⟩
      rw [hE] at hfr
      simp only at hfr
      simp only [lookupSeq, hE]
      rw [hfr]
      exact ih σ3 h3
  · intro n2 σ2 h2
    rw [createIfKnown_frame env r n σ h]

end ProtoDynamic
